import Mathlib

/-!
Verification of the NowPlaying repository (terminal audio player with
waveform / spectrum visualization) against its natural-language spec.

The Python sources are shallowly embedded:
* exact arithmetic on samples, times and levels uses `ℚ` where the code is
  elementary (cursor arithmetic, waveform averaging, the render-loop clock),
  and `ℝ` where the code uses transcendental functions (Hann window, FFT
  magnitudes, decibel conversion in `render_spectrum_bars`);
* Python `int(x)` (truncation toward zero) is embedded explicitly;
* the external world (ffmpeg/ffprobe subprocesses, the audio device, the
  wall clock) is a parameter of the embedded functions, and Python
  exceptions become `Except` values.
-/

namespace NowPlaying

/-- Python `int(x)` for `x : ℚ`: truncation toward zero. -/
def pyIntQ (q : ℚ) : ℤ := if 0 ≤ q then ⌊q⌋ else ⌈q⌉

/-- Python `str.ljust`: pad on the right with spaces to the given width. -/
def pyLjust (s : String) (n : ℕ) : String :=
  s ++ String.mk (List.replicate (n - s.length) ' ')

/-! ## The audio callback
(`src/nowplaying/play-pitch.py` lines 76–85; the callbacks in
`src/nowplay/play_peak.py` lines 89–97, `src/nowplaying/play-peak.py` and
`src/nowplaying/play.py` are the same logic, with the cursor held in a
one-element list instead of a function attribute.)

```python
def callback(outdata, frames, time_info, status):
    idx   = callback.idx
    chunk = y[idx:idx + frames]
    if len(chunk) < frames:
        outdata[:len(chunk), 0] = chunk
        outdata[len(chunk):, 0] = 0
        raise sd.CallbackStop()
    outdata[:, 0] = chunk
    callback.idx += frames
```

Only the cursor and the number of samples copied matter for the claims, so
the embedding tracks those.  `L` is `len(y)`.  One invocation returns
(new cursor, samples copied, stopped?). -/

namespace Callback

/-- One audio-callback invocation.  `len(chunk) = min frames (L - idx)`
(`ℕ`-subtraction truncates at zero exactly as Python slicing does).  When the
chunk is short the copied samples are written, the rest zero-filled, and
`sd.CallbackStop` is raised *before* the cursor advance, so `idx` is
unchanged.  Otherwise `frames` samples are copied and the cursor advances by
`frames`. -/
def cbStep (L idx frames : ℕ) : ℕ × ℕ × Bool :=
  let copied := min frames (L - idx)
  if copied < frames then (idx, copied, true) else (idx + frames, copied, false)

/-- Run the callback on a list of requested block sizes (sounddevice invokes
it repeatedly; after `CallbackStop` no further invocations happen).  Returns
the final cursor and the per-invocation trace of (samples copied, stopped?). -/
def cbRun (L : ℕ) : ℕ → List ℕ → ℕ × List (ℕ × Bool)
  | idx, [] => (idx, [])
  | idx, f :: fs =>
    let s := cbStep L idx f
    if s.2.2 then (s.1, [(s.2.1, true)])
    else
      let rest := cbRun L s.1 fs
      (rest.1, (s.2.1, false) :: rest.2)

/-- Sum of all samples copied in a trace (including a final partial block). -/
def copiedSum (tr : List (ℕ × Bool)) : ℕ := (tr.map Prod.fst).sum

/-- Sum of samples copied in the invocations that completed without raising
`CallbackStop` (i.e. the invocations that advanced the cursor). -/
def completedSum (tr : List (ℕ × Bool)) : ℕ :=
  ((tr.filter fun p => !p.2).map Prod.fst).sum

end Callback

/-! ## The waveform analyzer
(`src/nowplay/play_peak.py` lines 17–28, `render_waveform_vertical`.)

```python
step = max(1, len(chunk) // width)
sampled = np.abs(chunk[:step * width].reshape(-1, step).mean(axis=1))
norm = sampled / np.max(sampled) if np.max(sampled) > 0 else sampled
levels = (norm * (height - 1)).astype(int)
```
-/

namespace PlayPeak

/-- Arithmetic mean of a list (`np.ndarray.mean(axis=1)` over one block). -/
def meanQ (l : List ℚ) : ℚ := l.sum / l.length

/-- `np.max`: the maximum of a list.  numpy raises on an empty array; the
code only reaches this with a non-empty array (see `render_levels`), and the
embedding returns `0` on `[]` (unused). -/
def npMaxQ (l : List ℚ) : ℚ := l.foldr max (l.headD 0)

/-- `k` consecutive rows of `step` elements each. -/
def groupRows (step : ℕ) : ℕ → List ℚ → List (List ℚ)
  | 0, _ => []
  | k + 1, l => l.take step :: groupRows step k (l.drop step)

/-- `reshape(-1, step)`: numpy infers the row count `len / step` (the
caller only passes lengths that divide evenly) and splits into consecutive
rows of `step` elements. -/
def groups (step : ℕ) (l : List ℚ) : List (List ℚ) :=
  groupRows step (l.length / step) l

/-- The level computation inside `render_waveform_vertical` (the chunk is
known non-empty there; the empty case returns blank rows before this code
runs). -/
def render_levels (chunk : List ℚ) (width height : ℕ) : List ℤ :=
  let step := max 1 (chunk.length / width)
  let sampled := (groups step (chunk.take (step * width))).map fun g => |meanQ g|
  let m := npMaxQ sampled
  let norm := if 0 < m then sampled.map (· / m) else sampled
  norm.map fun q => pyIntQ (q * ((height : ℚ) - 1))

/-- Modelled from the spec's words for comparison with the code (claim C3):
"downsamples the chunk to exactly `width` points by averaging the absolute
amplitudes within blocks of size `max(1, len(chunk)//width)`, normalizes by
the chunk's own maximum with a zero-safe guard, and scales the result to
integer levels in `[0, height-1]`".  The only difference from
`render_levels` is `mean (|·|)` per block instead of `|mean (·)|`. -/
def claimed_levels (chunk : List ℚ) (width height : ℕ) : List ℤ :=
  let step := max 1 (chunk.length / width)
  let sampled := (groups step (chunk.take (step * width))).map fun g => meanQ (g.map fun x => |x|)
  let m := npMaxQ sampled
  let norm := if 0 < m then sampled.map (· / m) else sampled
  norm.map fun q => pyIntQ (q * ((height : ℚ) - 1))

end PlayPeak

/-! ## The render-loop clock
(`src/nowplaying/play-pitch.py` lines 87–100 and 142.)

```python
frames = int(np.ceil(duration * fps))
with ...:
    start_time = time.time()
    for frame in range(frames):
        elapsed = time.time() - start_time
        idx = int(elapsed * sr)
        if idx >= len(y):
            break
        ...render...
        time.sleep(max(0, (start_time + (frame + 1) / fps) - time.time()))
```

The wall clock is a parameter `r : ℕ → ℚ` giving the successive values
returned by `time.time()`: `r 0` is `start_time`, and iteration `n` reads
`r (2*n+1)` for `elapsed` and `r (2*n+2)` inside the sleep argument.  The
guarantee of `time.sleep` becomes a hypothesis relating `r (2*n+2)` and
`r (2*n+3)` in the theorems. -/

namespace Clock

/-- `int(np.ceil(duration * fps))` with `duration = len(y) / sr`. -/
def framesOf (L sr fps : ℕ) : ℕ := (⌈((L : ℚ) / sr) * fps⌉).toNat

/-- The render loop, from iteration `n` with `rem` iterations of the `range`
remaining.  Returns the list of (frame index, elapsed) pairs actually
rendered; the loop breaks (rendering nothing further) as soon as the derived
sample index reaches the buffer length. -/
def loopIter (L sr : ℕ) (r : ℕ → ℚ) : ℕ → ℕ → List (ℕ × ℚ)
  | _, 0 => []
  | n, rem + 1 =>
    let elapsed := r (2 * n + 1) - r 0
    if (L : ℤ) ≤ pyIntQ (elapsed * sr) then []
    else (n, elapsed) :: loopIter L sr r (n + 1) rem

/-- The whole render loop of `play_and_visualize`. -/
def loopRun (L sr fps : ℕ) (r : ℕ → ℚ) : List (ℕ × ℚ) :=
  loopIter L sr r 0 (framesOf L sr fps)

end Clock

/-! ## The spectral analyzer
(`src/nowplaying/play-pitch.py` lines 30–50, `render_spectrum_bars`.)

```python
if len(chunk) == 0:
    return [0] * width
w     = np.hanning(len(chunk))
spec  = np.abs(np.fft.rfft(chunk * w))
freqs = np.fft.rfftfreq(len(chunk), 1.0 / sr)
f_max = sr / 2
edges = np.logspace(np.log10(f_min), np.log10(f_max), num=width + 1)
bands = []
for i in range(width):
    lo, hi = edges[i], edges[i + 1]
    idx    = np.where((freqs >= lo) & (freqs < hi))[0]
    bands.append(spec[idx].max() if idx.size else 0.0)
mags_db = 20 * np.log10(np.array(bands) / (ref + 1e-9) + 1e-9)
mags_db = np.clip(mags_db, floor_db, None)
norm    = (mags_db - floor_db) / (-floor_db)
levels  = (norm * height).astype(int)
```

Floating-point arithmetic is embedded as exact real arithmetic (the float
literal `1e-9` becomes the real `1/10^9`). -/

namespace PlayPitch

/-- Python `int(x)` for `x : ℝ`: truncation toward zero
(`ndarray.astype(int)` truncates elementwise). -/
noncomputable def pyIntR (x : ℝ) : ℤ := if 0 ≤ x then ⌊x⌋ else ⌈x⌉

/-- `np.hanning(M)`: `0.5 - 0.5*cos(2*pi*k/(M-1))` for `k = 0..M-1`, and
`[1]` for `M = 1`. -/
noncomputable def hanning (n : ℕ) : List ℝ :=
  if n = 1 then [1]
  else (List.range n).map fun k : ℕ => 1 / 2 - 1 / 2 * Real.cos (2 * Real.pi * (k : ℝ) / ((n : ℝ) - 1))

/-- `np.abs(np.fft.rfft(x))`: the magnitudes of the first `n/2 + 1`
coefficients of the discrete Fourier transform
`X_k = sum_j x_j * exp(-2*pi*i*j*k/n)`. -/
noncomputable def rfftMag (x : List ℝ) : List ℝ :=
  (List.range (x.length / 2 + 1)).map fun k : ℕ =>
    Complex.abs (Finset.sum (Finset.range x.length) fun j =>
      ((x.getD j 0 : ℝ) : ℂ) *
        Complex.exp (-(2 * Real.pi * Complex.I * (j : ℂ) * (k : ℂ)) / (x.length : ℂ)))

/-- `np.fft.rfftfreq(n, 1/sr)`: bin `k` has frequency `k*sr/n`. -/
noncomputable def rfftfreq (n : ℕ) (sr : ℝ) : List ℝ :=
  (List.range (n / 2 + 1)).map fun k : ℕ => (k : ℝ) * sr / (n : ℝ)

/-- `np.logspace(a, b, num)`: `10 ** (a + i*(b-a)/(num-1))` for
`i = 0..num-1`. -/
noncomputable def logspace (a b : ℝ) (num : ℕ) : List ℝ :=
  (List.range num).map fun i : ℕ => (10 : ℝ) ^ (a + (i : ℝ) * (b - a) / ((num : ℝ) - 1))

/-- `spec[idx].max()` for a non-empty index set (same max-of-list embedding
as `np.max`; the `0` default on `[]` is unused because the caller checks
`idx.size`). -/
noncomputable def npMaxR (l : List ℝ) : ℝ := l.foldr max (l.headD 0)

/-- The per-band peak magnitudes (the `bands` list of the source):
band `i` is the maximum of `spec` over the bins whose frequency lies in
`[edges[i], edges[i+1])`, or `0.0` if no bin does. -/
noncomputable def bandPeaks (spec freqs edges : List ℝ) (width : ℕ) : List ℝ :=
  (List.range width).map fun i =>
    let lo := edges.getD i 0
    let hi := edges.getD (i + 1) 0
    let idx := (List.range freqs.length).filter fun k =>
      decide (lo ≤ freqs.getD k 0) && decide (freqs.getD k 0 < hi)
    if idx.isEmpty then 0 else npMaxR (idx.map fun k => spec.getD k 0)

/-- The `bands` array computed by `render_spectrum_bars` for a non-empty
chunk (Hann window, real FFT magnitudes, log-spaced band edges, per-band
peak). -/
noncomputable def bandsOf (chunk : List ℝ) (width : ℕ) (sr f_min : ℝ) : List ℝ :=
  let w := hanning chunk.length
  let spec := rfftMag (List.zipWith (· * ·) chunk w)
  let freqs := rfftfreq chunk.length sr
  let f_max := sr / 2
  let edges := logspace (Real.logb 10 f_min) (Real.logb 10 f_max) (width + 1)
  bandPeaks spec freqs edges width

/-- The dB conversion, floor clip, normalization and integer truncation
applied to one band magnitude `m`. -/
noncomputable def levelOf (height : ℕ) (floor_db ref m : ℝ) : ℤ :=
  let db := 20 * Real.logb 10 (m / (ref + 1 / 10 ^ 9) + 1 / 10 ^ 9)
  let clipped := max db floor_db
  let norm := (clipped - floor_db) / (-floor_db)
  pyIntR (norm * height)

/-- `render_spectrum_bars(chunk, width, height, sr, floor_db, f_min, ref)`. -/
noncomputable def render_spectrum_bars (chunk : List ℝ) (width height : ℕ)
    (sr floor_db f_min ref : ℝ) : List ℤ :=
  if chunk.length = 0 then List.replicate width 0
  else (bandsOf chunk width sr f_min).map (levelOf height floor_db ref)

end PlayPitch

/-! ## The audio loader
(`src/nowplay/utils.py`: `load_audio_ffmpeg` lines 4–80, `load_audio`
lines 82–102.)

The external world (the ffprobe/ffmpeg subprocesses, the file system) is an
`Env` parameter; Python exceptions become an explicit `PyExc` error value.
All in-repo callers pass `mono=True`, and the embedding fixes `mono=True`
(the `mono=False` branches of the source are dead code for this program).
Sample values are `ℚ`. -/

namespace Utils

/-- The Python exception classes that appear in `utils.py`. -/
inductive PyExc
  | runtimeError (msg : String)
  | valueError
  deriving DecidableEq, Repr

/-- Outcome of `subprocess.run(probe_cmd, ..., check=True)`:
the executable may be missing (`FileNotFoundError`), the process may exit
non-zero (`CalledProcessError`, because of `check=True`), or it succeeds and
`probe.stdout.strip().split('\n')` yields a list of lines. -/
inductive ProbeResult
  | fileNotFound
  | processError (msg : String)
  | output (lines : List String)
  deriving DecidableEq, Repr

/-- Outcome of `subprocess.run(ffmpeg_cmd, ..., check=True)` for a given
target sample rate: missing executable, non-zero exit, or the decoded
`f32le` samples. -/
inductive FfmpegResult
  | fileNotFound
  | processError (msg : String)
  | samples (y : List ℚ)
  deriving DecidableEq, Repr

/-- The environment of one `load_audio` call: what each external call would
return.  `file` is the raw byte contents for the fallback WAV loader
(`none` means `open(filepath, "rb")` itself raises). -/
structure Env where
  probe : ProbeResult
  ffmpeg : ℕ → FfmpegResult
  file : Option (List ℕ)

/-- Little-endian unsigned integer from `w` bytes. -/
def leBytes : List ℕ → ℕ
  | [] => 0
  | b :: bs => b % 256 + 256 * leBytes bs

/-- One little-endian `int16` sample scaled by `1/32768`
(`np.frombuffer(raw, np.int16).astype(np.float32) / 32768.0`). -/
def i16Sample (lo hi : ℕ) : ℚ :=
  let v := lo % 256 + 256 * (hi % 256)
  (if v < 32768 then (v : ℤ) else (v : ℤ) - 65536) / 32768

/-- Consecutive byte pairs as `int16` samples. -/
def pcm16 : List ℕ → List ℚ
  | lo :: hi :: rest => i16Sample lo hi :: pcm16 rest
  | _ => []

/-- Mean over each group of `ch` consecutive samples
(`np.mean(audio.reshape(-1, channels), axis=1)`), used to mix to mono. -/
def chanMean (ch : ℕ) : List ℚ → List ℚ
  | [] => []
  | l =>
    if h : ch = 0 ∨ l.length < ch then []
    else
      have : l.length - ch < l.length := by
        rcases Nat.lt_or_ge 0 ch with hs | hs
        · have h2 : ¬ l.length < ch := by tauto
          omega
        · omega
      ((l.take ch).sum / ch) :: chanMean ch (l.drop ch)
  termination_by l => l.length

/-- The fallback raw-PCM WAV loader (the inner `try` of
`load_audio_ffmpeg`, lines 52–76).  Every failure inside the block is caught
by `except Exception as fallback_e`, so the result is either the
`(samples, rate)` pair or the message that ends up inside the
`RuntimeError`.  Failures embedded: `open` raising, a non-RIFF/WAVE header,
a bit depth other than 16, and the `np.frombuffer`/`reshape` `ValueError`s
for sizes that do not divide evenly. -/
def wavFallback (file : Option (List ℕ)) : Except String (List ℚ × ℕ) :=
  match file with
  | none => .error "file open failed"
  | some bytes =>
    let header := bytes.take 44
    if ¬ (header.take 4 = [0x52, 0x49, 0x46, 0x46] ∧
          ((header.drop 8).take 4 = [0x57, 0x41, 0x56, 0x45])) then
      .error "File is not a standard PCM WAV file and ffmpeg is not available."
    else
      let orig_sr := leBytes ((header.drop 24).take 4)
      let channels := leBytes ((header.drop 22).take 2)
      let bits := leBytes ((header.drop 34).take 2)
      if bits ≠ 16 then .error "Only 16-bit PCM WAV supported in fallback."
      else
        let raw := bytes.drop 44
        if raw.length % 2 ≠ 0 then
          .error "buffer size must be a multiple of element size"
        else
          let audio := pcm16 raw
          if 1 < channels ∧ audio.length % channels ≠ 0 then
            .error "cannot reshape array"
          else
            let y := if 1 < channels then chanMean channels audio else audio
            .ok (y, orig_sr)

/-- `int(s)` on the probe output lines (approximated by `String.toNat?`;
ffprobe prints non-negative decimal integers). -/
def pyToNat? (s : String) : Option ℕ := s.toNat?

/-- `load_audio_ffmpeg(filepath, sr=sr?, mono=True)`.  The `try` block
catches `FileNotFoundError` (→ WAV fallback, whose own failures become
`RuntimeError`) and `subprocess.CalledProcessError` (→ `RuntimeError`);
any other exception — in particular the `ValueError` raised when the probe
output does not unpack into two integer lines — propagates. -/
def load_audio_ffmpeg (env : Env) (sr? : Option ℕ) : Except PyExc (List ℚ × ℕ) :=
  let fallback : Except PyExc (List ℚ × ℕ) :=
    match wavFallback env.file with
    | .error m =>
      .error (.runtimeError ("ffmpeg/ffprobe not found and fallback WAV loader failed: " ++ m))
    | .ok r => .ok r
  match env.probe with
  | .fileNotFound => fallback
  | .processError msg => .error (.runtimeError ("ffmpeg or ffprobe failed: " ++ msg))
  | .output lines =>
    match lines with
    | [chStr, srStr] =>
      match pyToNat? chStr, pyToNat? srStr with
      | some _, some orig_sr =>
        let target_sr := sr?.getD orig_sr
        match env.ffmpeg target_sr with
        | .fileNotFound => fallback
        | .processError msg => .error (.runtimeError ("ffmpeg or ffprobe failed: " ++ msg))
        | .samples y => .ok (y, target_sr)
      | _, _ => .error .valueError
    | _ => .error .valueError

/-- Result of a `load_audio` call: the returned value (or the propagated
exception) together with the lines it printed. -/
structure LoadResult where
  result : Except PyExc (List ℚ × ℕ)
  printed : List String
  deriving Repr

/-- `load_audio(filepath, sr=sr?, mono=True)`: catches `RuntimeError` only,
degrading to `(np.array([]), 0)` plus two printed warning lines; every other
outcome of `load_audio_ffmpeg` passes through unchanged. -/
def load_audio (env : Env) (sr? : Option ℕ) : LoadResult :=
  match load_audio_ffmpeg env sr? with
  | .error (.runtimeError m) =>
    ⟨.ok ([], 0), ["Warning: " ++ m, "Falling back to dummy loader (returns empty array)."]⟩
  | r => ⟨r, []⟩

end Utils

/-! ## Frame composition
(`src/nowplaying/play-pitch.py` lines 105–140: the per-tick frame build.)

Terminal escape mechanics are a rendering sink; `term.move` and
`term.color` are embedded as fixed ANSI escape strings (the exact byte
encoding is irrelevant to the claims, which compare whole frames). -/

namespace Compose

/-- Round-half-to-even of a rational to an integer (Python's `round`/format
rounding mode). -/
def roundHalfEven (q : ℚ) : ℤ :=
  let f := ⌊q⌋
  let r := q - f
  if r < 1 / 2 then f
  else if 1 / 2 < r then f + 1
  else if f % 2 = 0 then f else f + 1

/-- Python `f"{x:.2f}"` on an exact rational. -/
def format2 (q : ℚ) : String :=
  let n := roundHalfEven (q * 100)
  let sign := if n < 0 then "-" else ""
  let a := n.natAbs
  let fracStr := if a % 100 < 10 then "0" ++ toString (a % 100) else toString (a % 100)
  sign ++ toString (a / 100) ++ "." ++ fracStr

/-- `term.move(row, col)` (cursor positioning escape, 1-based). -/
def escMove (row col : ℕ) : String :=
  "\x1b[" ++ toString (row + 1) ++ ";" ++ toString (col + 1) ++ "H"

/-- `term.color(code)(text)`: 256-color foreground escape around the text. -/
def escColor (code : ℕ) (text : String) : String :=
  "\x1b[38;5;" ++ toString code ++ "m" ++ text ++ "\x1b[0m"

/-- The `color_idx` selection for a row (`spectrum_height` thresholds;
the float constants 0.9/0.7/0.5/0.3 are exact at the program's
`spectrum_height = 18`). -/
def colorIdx (height row : ℕ) : ℕ :=
  if (height : ℚ) * (9 / 10) ≤ (row : ℚ) then 4
  else if (height : ℚ) * (7 / 10) ≤ (row : ℚ) then 3
  else if (height : ℚ) * (1 / 2) ≤ (row : ℚ) then 2
  else if (height : ℚ) * (3 / 10) ≤ (row : ℚ) then 1
  else 0

/-- The `char` selection for one cell: a filled block when
`spectrum_height - row <= lvl`, of width depending on the mode flags, else
blanks of the same width. -/
def cellChar (fast pretty : Bool) (height row : ℕ) (lvl : ℤ) : String :=
  if (height : ℤ) - (row : ℤ) ≤ lvl ∧ fast = true then "█"
  else if (height : ℤ) - (row : ℤ) ≤ lvl ∧ pretty = true then "███"
  else if (height : ℤ) - (row : ℤ) ≤ lvl then "██"
  else if fast = true then "  "
  else if pretty = true then "   "
  else "  "

/-- One cell: the colored char when `char.strip()` is non-empty (i.e. the
cell is filled), the bare blanks otherwise. -/
def cell (colorSteps : List ℕ) (fast pretty : Bool) (height row : ℕ) (lvl : ℤ) : String :=
  let ch := cellChar fast pretty height row lvl
  if ch.trim ≠ "" then escColor (colorSteps.getD (colorIdx height row) 0) ch else ch

/-- One visual row of the spectrum grid. -/
def rowLine (levels : List ℤ) (colorSteps : List ℕ) (fast pretty : Bool)
    (height row : ℕ) : String :=
  escMove row 0 ++ String.join (levels.map (cell colorSteps fast pretty height row))

/-- The full frame written in one flush: the grid rows, the status line
(elapsed/duration to two decimals, left-justified to 80 columns) and the
metadata overlay lines, prefixed by a home-cursor move. -/
def composeFrame (levels : List ℤ) (colorSteps : List ℕ)
    (metadata : List (String × String)) (elapsed duration : ℚ)
    (fast pretty : Bool) (height : ℕ) : String :=
  let grid := (List.range height).map fun row =>
    rowLine levels colorSteps fast pretty height row
  let status := escMove height 0 ++
    pyLjust ("└ Elapsed: " ++ format2 elapsed ++ "s / " ++ format2 duration ++ "s") 80
  let metaLines := (List.range metadata.length).map fun i =>
    escMove (height + 2 + i) 0 ++
      (metadata.getD i ("", "")).1 ++ ": " ++ (metadata.getD i ("", "")).2
  escMove 0 0 ++ String.join (grid ++ [status] ++ metaLines)

/-- The state of the render loop at the moment one frame is composed.  The
first seven fields are the inputs the frame is built from; the remaining
fields (loop frame counter, audio cursor, latest raw clock reading) are the
rest of the session state, which the composition must not depend on. -/
structure RenderState where
  levels : List ℤ
  colorSteps : List ℕ
  metadata : List (String × String)
  elapsed : ℚ
  duration : ℚ
  fast : Bool
  pretty : Bool
  frameIndex : ℕ
  audioCursor : ℕ
  clockReading : ℚ

/-- The bytes one loop iteration writes to the terminal (height is the
program's `spectrum_height = 18`). -/
def frameBytes (s : RenderState) : String :=
  composeFrame s.levels s.colorSteps s.metadata s.elapsed s.duration s.fast s.pretty 18

end Compose

/-! ## The playback sessions

The audio device is modelled by `supported : ℕ → Bool`
(`sd.check_output_settings` raises `PortAudioError` exactly on unsupported
rates, and opening `sd.OutputStream` at an unsupported rate raises the same
error).  The loader is a parameter `load : Option ℕ → List ℚ × ℕ` mapping a
requested rate to what `load_audio(filepath, sr=..., mono=True)` returns
(`none` = no rate requested); `load_audio` never raises on these paths, per
`Utils.load_audio`.  The printed lines modelled are the session's own
messages; metadata printing (external `mutagen` collaborator) is elided. -/

namespace Session

/-- Observable outcome of `play_and_visualize` + `main` in
`src/nowplaying/play-pitch.py`. -/
structure PitchTrace where
  printed : List String
  openedStream : Bool
  renderedFrames : ℕ
  exitCode : ℕ
  deriving DecidableEq, Repr

/-- `src/nowplaying/play-pitch.py` `play_and_visualize` (lines 53–144)
wrapped by `main` (lines 171–178): load; on an empty buffer print the
failure message and return (main then falls through, exit status 0); else
renegotiate the rate at most once (fallback 44100 with reload); open the
stream (a `PortAudioError` there propagates to `main`, which prints an
error and exits 1); run the render loop. -/
def playPitchMain (load : Option ℕ → List ℚ × ℕ) (supported : ℕ → Bool)
    (fast pretty : Bool) (r : ℕ → ℚ) : PitchTrace :=
  let p0 := load none
  if p0.1.length = 0 then ⟨["Failed to load audio."], false, 0, 0⟩
  else
    let p := if supported p0.2 then p0 else ((load (some 44100)).1, 44100)
    if supported p.2 then
      let fps := if pretty then 60 else if fast then 15 else 30
      ⟨["Playback finished."], true, (Clock.loopRun p.1.length p.2 fps r).length, 0⟩
    else ⟨["Error: PortAudioError"], false, 0, 1⟩

/-- Observable outcome of `play_and_visualize` + `main` in
`src/nowplay/play_peak.py`. -/
structure PeakTrace where
  printed : List String
  sr : ℕ
  buffer : List ℚ
  loadCalls : ℕ
  openedStream : Bool
  duration : Option ℚ
  exitCode : ℕ
  deriving DecidableEq, Repr

/-- `src/nowplay/play_peak.py` `play_and_visualize` (lines 63–115) wrapped
by `main` (lines 136–143): load; validate the rate, falling back once to
44100 (with a warning and a reload) if unsupported; then the empty-buffer
check; then duration; then the stream is opened (an unsupported fallback
rate raises `PortAudioError` there, which `main` surfaces with exit 1). -/
def playPeakMain (load : Option ℕ → List ℚ × ℕ) (supported : ℕ → Bool) : PeakTrace :=
  let p0 := load none
  let warn : List String :=
    if supported p0.2 then []
    else ["Warning: Sample rate " ++ toString p0.2 ++ " not supported. Falling back to 44100 Hz."]
  let p := if supported p0.2 then p0 else ((load (some 44100)).1, 44100)
  let calls := if supported p0.2 then 1 else 2
  if p.1.length = 0 then ⟨warn ++ ["Failed to load audio."], p.2, p.1, calls, false, none, 0⟩
  else
    let dur := (p.1.length : ℚ) / (p.2 : ℚ)
    let durLine := "Duration: " ++ Compose.format2 dur ++ " seconds"
    if supported p.2 then
      ⟨warn ++ [durLine, "Playback finished."], p.2, p.1, calls, true, some dur, 0⟩
    else ⟨warn ++ [durLine, "Error: PortAudioError"], p.2, p.1, calls, false, some dur, 1⟩

/-- Printed lines / computed duration of a simpler session entry point. -/
structure SimpleTrace where
  printed : List String
  duration : Option ℚ
  deriving DecidableEq, Repr

/-- `src/nowplaying/play.py` `play_and_visualize` (lines 32–73): load, then
the empty-buffer check, then duration (no rate validation in this
variant). -/
def playMain (load : Option ℕ → List ℚ × ℕ) : SimpleTrace :=
  let p := load none
  if p.1.length = 0 then ⟨["Failed to load audio."], none⟩
  else
    let dur := (p.1.length : ℚ) / (p.2 : ℚ)
    ⟨["Duration: " ++ Compose.format2 dur ++ " seconds"], some dur⟩

/-- `src/nowplaying/play-peak.py` `play_and_visualize` (lines 41–103):
load, rate validation with single 44100 fallback + reload, then the
empty-buffer check, then duration. -/
def playPeakOldMain (load : Option ℕ → List ℚ × ℕ) (supported : ℕ → Bool) : SimpleTrace :=
  let p0 := load none
  let p := if supported p0.2 then p0 else ((load (some 44100)).1, 44100)
  if p.1.length = 0 then ⟨["Failed to load audio."], none⟩
  else
    let dur := (p.1.length : ℚ) / (p.2 : ℚ)
    ⟨["Duration: " ++ Compose.format2 dur ++ " seconds"], some dur⟩

end Session

/-! ## Helper lemmas -/

theorem completedSum_nil : Callback.completedSum [] = 0 := rfl

theorem completedSum_cons_false (c : ℕ) (tr : List (ℕ × Bool)) :
    Callback.completedSum ((c, false) :: tr) = c + Callback.completedSum tr := by
  simp [Callback.completedSum]

theorem completedSum_stop (c : ℕ) : Callback.completedSum [(c, true)] = 0 := by
  simp [Callback.completedSum]

theorem cbRun_idx (L : ℕ) (fs : List ℕ) : ∀ idx : ℕ,
    (Callback.cbRun L idx fs).1 = idx + Callback.completedSum (Callback.cbRun L idx fs).2 := by
  induction fs with
  | nil => intro idx; simp [Callback.cbRun, completedSum_nil]
  | cons f fs ih =>
    intro idx
    by_cases hb : L - idx < f
    · simp [Callback.cbRun, Callback.cbStep, hb, Callback.completedSum]
    · simp only [Callback.cbRun, Callback.cbStep]
      have hmin : min f (L - idx) = f := by omega
      rw [hmin]
      simp only [lt_irrefl, if_false, if_neg (by simp : ¬ false = true)]
      rw [completedSum_cons_false]
      have := ih (idx + f)
      omega

theorem cbRun_le (L : ℕ) (fs : List ℕ) : ∀ idx : ℕ, idx ≤ L →
    (Callback.cbRun L idx fs).1 ≤ L := by
  induction fs with
  | nil => intro idx h; simpa [Callback.cbRun] using h
  | cons f fs ih =>
    intro idx h
    by_cases hb : L - idx < f
    · simpa [Callback.cbRun, Callback.cbStep, hb] using h
    · simp only [Callback.cbRun, Callback.cbStep]
      have hmin : min f (L - idx) = f := by omega
      rw [hmin]
      simp only [lt_irrefl, if_false, if_neg (by simp : ¬ false = true)]
      exact ih (idx + f) (by omega)

theorem le_foldr_max {α : Type} [LinearOrder α] (a : α) (l : List α) :
    a ≤ l.foldr max a := by
  induction l with
  | nil => exact le_refl a
  | cons b t ih => exact le_trans ih (le_max_right b _)

theorem mem_le_foldr_max {α : Type} [LinearOrder α] {x : α} (a : α) {l : List α}
    (hx : x ∈ l) : x ≤ l.foldr max a := by
  induction l with
  | nil => cases hx
  | cons b t ih =>
    rcases List.mem_cons.1 hx with rfl | hx
    · exact le_max_left x _
    · exact le_trans (ih hx) (le_max_right b _)

theorem foldr_max_le {α : Type} [LinearOrder α] {a c : α} {l : List α}
    (ha : a ≤ c) (hl : ∀ x ∈ l, x ≤ c) : l.foldr max a ≤ c := by
  induction l with
  | nil => exact ha
  | cons b t ih =>
    exact max_le (hl b (List.mem_cons_self b t)) (ih fun x hx => hl x (List.mem_cons_of_mem b hx))

theorem mem_le_npMaxQ {x : ℚ} {l : List ℚ} (hx : x ∈ l) : x ≤ PlayPeak.npMaxQ l :=
  mem_le_foldr_max _ hx

theorem pyIntQ_range {q : ℚ} {N : ℤ} (h0 : 0 ≤ q) (hN : q ≤ (N : ℚ)) :
    0 ≤ pyIntQ q ∧ pyIntQ q ≤ N := by
  unfold pyIntQ
  rw [if_pos h0]
  refine ⟨Int.floor_nonneg.2 h0, ?_⟩
  have := Int.floor_le_floor hN
  simpa using this

theorem groupRows_length (step k : ℕ) : ∀ l : List ℚ,
    (PlayPeak.groupRows step k l).length = k := by
  induction k with
  | zero => intro l; rfl
  | succ k ih => intro l; simp [PlayPeak.groupRows, ih]

theorem groups_length (step : ℕ) (hs : step ≠ 0) (w : ℕ) (l : List ℚ)
    (hl : l.length = step * w) : (PlayPeak.groups step l).length = w := by
  rw [PlayPeak.groups, groupRows_length, hl, Nat.mul_div_cancel_left w (by omega)]

theorem levels_range_of_nonneg (sampled : List ℚ) (height : ℕ) (hh : 1 ≤ height)
    (hnn : ∀ s ∈ sampled, 0 ≤ s) :
    ∀ l ∈ ((if 0 < PlayPeak.npMaxQ sampled then
              sampled.map (· / PlayPeak.npMaxQ sampled) else sampled).map
            fun q => pyIntQ (q * ((height : ℚ) - 1))),
      0 ≤ l ∧ l ≤ (height : ℤ) - 1 := by
  intro l hl
  rcases List.mem_map.1 hl with ⟨q, hq, rfl⟩
  have hq01 : 0 ≤ q ∧ q ≤ 1 := by
    by_cases hm : 0 < PlayPeak.npMaxQ sampled
    · rw [if_pos hm] at hq
      rcases List.mem_map.1 hq with ⟨s, hs, rfl⟩
      exact ⟨div_nonneg (hnn s hs) (le_of_lt hm), (div_le_one hm).2 (mem_le_npMaxQ hs)⟩
    · rw [if_neg hm] at hq
      have h0 : q = 0 :=
        le_antisymm (le_trans (mem_le_npMaxQ hq) (not_lt.1 hm)) (hnn q hq)
      rw [h0]
      norm_num
  have hh1 : (0 : ℚ) ≤ (height : ℚ) - 1 := by
    have : (1 : ℚ) ≤ (height : ℚ) := by exact_mod_cast hh
    linarith
  have h0 : 0 ≤ q * ((height : ℚ) - 1) := mul_nonneg hq01.1 hh1
  have hN : q * ((height : ℚ) - 1) ≤ (((height : ℤ) - 1 : ℤ) : ℚ) := by
    push_cast
    nlinarith [hq01.1, hq01.2, hh1]
  exact pyIntQ_range h0 hN

theorem loopIter_entries (L sr : ℕ) (r : ℕ → ℚ) : ∀ (rem n : ℕ),
    ∀ p ∈ Clock.loopIter L sr r n rem,
      p.2 = r (2 * p.1 + 1) - r 0 ∧ n ≤ p.1 ∧ pyIntQ (p.2 * sr) < (L : ℤ) := by
  intro rem
  induction rem with
  | zero => intro n p hp; cases hp
  | succ rem ih =>
    intro n p hp
    rw [Clock.loopIter] at hp
    by_cases hbr : (L : ℤ) ≤ pyIntQ ((r (2 * n + 1) - r 0) * sr)
    · rw [if_pos hbr] at hp
      cases hp
    · rw [if_neg hbr] at hp
      rcases List.mem_cons.1 hp with rfl | hp
      · exact ⟨rfl, le_refl n, not_le.1 hbr⟩
      · have := ih (n + 1) p hp
        exact ⟨this.1, by omega, this.2.2⟩

theorem loopIter_length_le (L sr : ℕ) (r : ℕ → ℚ) : ∀ (rem n : ℕ),
    (Clock.loopIter L sr r n rem).length ≤ rem := by
  intro rem
  induction rem with
  | zero => intro n; simp [Clock.loopIter]
  | succ rem ih =>
    intro n
    rw [Clock.loopIter]
    by_cases hbr : (L : ℤ) ≤ pyIntQ ((r (2 * n + 1) - r 0) * sr)
    · rw [if_pos hbr]
      simp
    · rw [if_neg hbr]
      simpa using ih (n + 1)

theorem loopIter_length_ideal (L sr fps : ℕ) (r : ℕ → ℚ) (hsr : 0 < sr) (hfps : 0 < fps)
    (hid : ∀ n : ℕ, r (2 * n + 1) = r 0 + (n : ℚ) / (fps : ℚ)) : ∀ (rem n : ℕ),
    n + rem = Clock.framesOf L sr fps → (Clock.loopIter L sr r n rem).length = rem := by
  have hsr' : (0 : ℚ) < (sr : ℚ) := by exact_mod_cast hsr
  have hfps' : (0 : ℚ) < (fps : ℚ) := by exact_mod_cast hfps
  intro rem
  induction rem with
  | zero => intro n _; rfl
  | succ rem ih =>
    intro n hn
    have hlt : (n : ℚ) < (L : ℚ) / (sr : ℚ) * (fps : ℚ) := by
      have h1 : (n : ℤ) < ⌈((L : ℚ) / (sr : ℚ)) * (fps : ℚ)⌉ := by
        have : n < Clock.framesOf L sr fps := by omega
        rw [Clock.framesOf] at this
        omega
      have := Int.lt_ceil.1 h1
      exact_mod_cast this
    have harg : (0 : ℚ) ≤ (n : ℚ) / (fps : ℚ) * (sr : ℚ) :=
      mul_nonneg (div_nonneg (Nat.cast_nonneg n) (le_of_lt hfps')) (Nat.cast_nonneg sr)
    have hlt2 : (n : ℚ) / (fps : ℚ) * (sr : ℚ) < (L : ℚ) := by
      rw [div_mul_eq_mul_div, div_lt_iff₀ hfps']
      have := (lt_div_iff₀ hsr').1 (by rw [div_mul_eq_mul_div] at hlt; exact hlt)
      linarith
    have hbr : ¬ (L : ℤ) ≤ pyIntQ ((r (2 * n + 1) - r 0) * sr) := by
      rw [hid n]
      have he : r 0 + (n : ℚ) / (fps : ℚ) - r 0 = (n : ℚ) / (fps : ℚ) := by ring
      rw [he, pyIntQ, if_pos harg, not_le]
      rw [Int.floor_lt]
      exact_mod_cast hlt2
    rw [Clock.loopIter, if_neg hbr]
    simp only [List.length_cons]
    rw [ih (n + 1) (by omega)]

/-! ## Claim theorems -/

theorem render_levels_eq (chunk : List ℚ) (width height : ℕ) :
    PlayPeak.render_levels chunk width height =
      (if 0 < PlayPeak.npMaxQ ((PlayPeak.groups (max 1 (chunk.length / width))
            (chunk.take (max 1 (chunk.length / width) * width))).map fun g => |PlayPeak.meanQ g|)
        then ((PlayPeak.groups (max 1 (chunk.length / width))
            (chunk.take (max 1 (chunk.length / width) * width))).map
              fun g => |PlayPeak.meanQ g|).map
            (· / PlayPeak.npMaxQ ((PlayPeak.groups (max 1 (chunk.length / width))
              (chunk.take (max 1 (chunk.length / width) * width))).map fun g => |PlayPeak.meanQ g|))
        else (PlayPeak.groups (max 1 (chunk.length / width))
            (chunk.take (max 1 (chunk.length / width) * width))).map
              fun g => |PlayPeak.meanQ g|).map
        fun q => pyIntQ (q * ((height : ℚ) - 1)) := rfl

/-- C2 (amended): starting from cursor 0, after any sequence of callback
invocations the cursor equals the sum of the samples copied in the
invocations that completed without raising `CallbackStop`; the final
partial block's samples are written to the output but the cursor is *not*
advanced for them (the `raise` precedes the advance).  The cursor never
exceeds the buffer length. -/
theorem cursor_advances_by_completed_blocks (L : ℕ) (fs : List ℕ) :
    (Callback.cbRun L 0 fs).1 = Callback.completedSum (Callback.cbRun L 0 fs).2 ∧
    (Callback.cbRun L 0 fs).1 ≤ L := by
  refine ⟨?_, cbRun_le L fs 0 (Nat.zero_le L)⟩
  simpa using cbRun_idx L fs 0

/-- C2 counterexample: a one-sample buffer with block size 2.  The single
invocation copies 1 sample into the output block (then zero-fills and
raises `CallbackStop`), so the sum of samples actually copied including the
final partial block is 1, but the cursor stays 0 — the claim's equality
fails. -/
theorem cursor_claim_false_on_partial_block :
    (Callback.cbRun 1 0 [2]).1 = 0 ∧
    Callback.copiedSum (Callback.cbRun 1 0 [2]).2 = 1 ∧
    (Callback.cbRun 1 0 [2]).1 ≠ Callback.copiedSum (Callback.cbRun 1 0 [2]).2 := by
  decide

/-- C3 (amended): for a chunk of length at least `width` (and positive
`width`, `height`), the waveform analyzer downsamples the chunk to exactly
`width` points, each the *absolute value of the mean of the signed
amplitudes* within a block of size `len(chunk) // width` (not the mean of
the absolute amplitudes), normalizes by the maximum of those block values
with a zero-safe guard, and scales to integer levels in `[0, height-1]`;
chunks shorter than `width` yield fewer than `width` points. -/
theorem waveform_analyzer_spec (chunk : List ℚ) (width height : ℕ)
    (hw : 1 ≤ width) (hlen : width ≤ chunk.length) (hh : 1 ≤ height) :
    (PlayPeak.render_levels chunk width height).length = width ∧
    ∀ l ∈ PlayPeak.render_levels chunk width height, 0 ≤ l ∧ l ≤ (height : ℤ) - 1 := by
  have hs1 : 1 ≤ chunk.length / width := (Nat.one_le_div_iff (by omega)).2 hlen
  have hstep : max 1 (chunk.length / width) = chunk.length / width := by omega
  have htake : (chunk.take (max 1 (chunk.length / width) * width)).length
      = max 1 (chunk.length / width) * width := by
    rw [List.length_take, hstep]
    have : chunk.length / width * width ≤ chunk.length := Nat.div_mul_le_self _ _
    omega
  have hglen : (PlayPeak.groups (max 1 (chunk.length / width))
      (chunk.take (max 1 (chunk.length / width) * width))).length = width :=
    groups_length _ (by omega) width _ (by rw [htake, Nat.mul_comm])
  have hnn : ∀ s ∈ (PlayPeak.groups (max 1 (chunk.length / width))
      (chunk.take (max 1 (chunk.length / width) * width))).map
        (fun g => |PlayPeak.meanQ g|), 0 ≤ s := by
    intro s hs
    rcases List.mem_map.1 hs with ⟨g, _, rfl⟩
    exact abs_nonneg _
  constructor
  · rw [render_levels_eq, List.length_map, apply_ite List.length, List.length_map,
        ite_self, List.length_map, hglen]
  · intro l hl
    rw [render_levels_eq] at hl
    exact levels_range_of_nonneg _ height hh hnn l hl

/-- C3 witness: a concrete instance of the amended waveform-analyzer
theorem at chunk `[1, -1, 2, -2]`, width 2, height 3. -/
theorem waveform_analyzer_spec_witness :
    1 ≤ 2 ∧ 2 ≤ ([1, -1, 2, -2] : List ℚ).length ∧ 1 ≤ 3 ∧
    ((PlayPeak.render_levels [1, -1, 2, -2] 2 3).length = 2 ∧
      ∀ l ∈ PlayPeak.render_levels [1, -1, 2, -2] 2 3, 0 ≤ l ∧ l ≤ (3 : ℤ) - 1) :=
  ⟨by decide, by decide, by decide,
    waveform_analyzer_spec [1, -1, 2, -2] 2 3 (by decide) (by decide) (by decide)⟩

/-- C3 counterexample: on the chunk `[1, -1]` with `width = 1`,
`height = 2` the code averages the *signed* samples of the block (mean `0`,
level `0`), while the claim's algorithm — averaging the absolute
amplitudes — gives mean `1` and level `1`; moreover on the chunk `[1]`
with `width = 2` the code produces 1 point, not exactly `width = 2`. -/
theorem waveform_claim_false_on_cancellation :
    PlayPeak.render_levels [1, -1] 1 2 = [0] ∧
    PlayPeak.claimed_levels [1, -1] 1 2 = [1] ∧
    PlayPeak.render_levels [1, -1] 1 2 ≠ PlayPeak.claimed_levels [1, -1] 1 2 ∧
    (PlayPeak.render_levels [1] 2 3).length ≠ 2 := by
  have h1 : PlayPeak.render_levels [1, -1] 1 2 = [0] := by
    norm_num [PlayPeak.render_levels, PlayPeak.groups, PlayPeak.groupRows,
      PlayPeak.meanQ, PlayPeak.npMaxQ, pyIntQ]
  have h2 : PlayPeak.claimed_levels [1, -1] 1 2 = [1] := by
    norm_num [PlayPeak.claimed_levels, PlayPeak.groups, PlayPeak.groupRows,
      PlayPeak.meanQ, PlayPeak.npMaxQ, pyIntQ]
  have h3 : PlayPeak.render_levels [1] 2 3 = [2] := by
    norm_num [PlayPeak.render_levels, PlayPeak.groups, PlayPeak.groupRows,
      PlayPeak.meanQ, PlayPeak.npMaxQ, pyIntQ]
  refine ⟨h1, h2, ?_, ?_⟩
  · rw [h1, h2]
    decide
  · rw [h3]
    decide

/-- C6: under the `time.sleep` guarantee (the clock reading after a sleep is
at least the reading at the sleep call plus the non-negative requested
duration), (i) no frame `n ≥ 1` is fired before wall-clock
`start + n/fps` — the loop sleeps until the next *absolute* target time
`start + (frame+1)/fps`; (ii) at most `ceil(duration * fps)` frames are
rendered; (iii) every rendered frame had derived sample index
`int(elapsed*sr)` strictly below the buffer length — the loop terminates as
soon as that index reaches the buffer length, independent of the audio
stream (the loop never consults the audio cursor); and (iv) with an ideal
clock that fires exactly at the target times, exactly
`ceil(duration * fps)` frames are rendered. -/
theorem playback_clock_spec (L sr fps : ℕ) (r : ℕ → ℚ) (hsr : 0 < sr) (hfps : 0 < fps)
    (hsleep : ∀ n : ℕ,
      r (2 * n + 2) + max 0 (r 0 + ((n : ℚ) + 1) / (fps : ℚ) - r (2 * n + 2)) ≤ r (2 * n + 3)) :
    (∀ p ∈ Clock.loopRun L sr fps r, 1 ≤ p.1 → ((p.1 : ℚ)) / (fps : ℚ) ≤ p.2) ∧
    (Clock.loopRun L sr fps r).length ≤ Clock.framesOf L sr fps ∧
    (∀ p ∈ Clock.loopRun L sr fps r, pyIntQ (p.2 * sr) < (L : ℤ)) ∧
    ((∀ n : ℕ, r (2 * n + 1) = r 0 + (n : ℚ) / (fps : ℚ)) →
      (Clock.loopRun L sr fps r).length = Clock.framesOf L sr fps) := by
  have htarget : ∀ n : ℕ, r 0 + ((n : ℚ) + 1) / (fps : ℚ) ≤ r (2 * n + 3) := by
    intro n
    have h1 := hsleep n
    have h2 : r 0 + ((n : ℚ) + 1) / (fps : ℚ) - r (2 * n + 2) ≤
        max 0 (r 0 + ((n : ℚ) + 1) / (fps : ℚ) - r (2 * n + 2)) := le_max_right _ _
    linarith
  refine ⟨?_, loopIter_length_le L sr r _ 0, ?_, ?_⟩
  · intro p hp hp1
    obtain ⟨k, hk⟩ : ∃ k, p.1 = k + 1 := ⟨p.1 - 1, by omega⟩
    have he := (loopIter_entries L sr r _ 0 p hp).1
    rw [hk] at he
    have h23 : 2 * (k + 1) + 1 = 2 * k + 3 := by omega
    rw [h23] at he
    rw [he, hk]
    push_cast
    linarith [htarget k]
  · intro p hp
    exact (loopIter_entries L sr r _ 0 p hp).2.2
  · intro hid
    exact loopIter_length_ideal L sr fps r hsr hfps hid _ 0 (by omega)

/-- C6 witness: the clock-spec theorem at a 3-sample buffer, 1 Hz sample
rate, 1 fps, with the clock whose `i`-th reading is `i/2` seconds (frame
`n` fires exactly at `n` seconds and each sleep lands exactly on the next
target). -/
theorem playback_clock_spec_witness :
    0 < 1 ∧
    (∀ n : ℕ, (fun i : ℕ => ((i / 2 : ℕ) : ℚ)) (2 * n + 2) +
        max 0 ((fun i : ℕ => ((i / 2 : ℕ) : ℚ)) 0 + ((n : ℚ) + 1) / ((1 : ℕ) : ℚ) -
          (fun i : ℕ => ((i / 2 : ℕ) : ℚ)) (2 * n + 2)) ≤
      (fun i : ℕ => ((i / 2 : ℕ) : ℚ)) (2 * n + 3)) ∧
    ((∀ p ∈ Clock.loopRun 3 1 1 (fun i : ℕ => ((i / 2 : ℕ) : ℚ)), 1 ≤ p.1 →
        ((p.1 : ℚ)) / ((1 : ℕ) : ℚ) ≤ p.2) ∧
      (Clock.loopRun 3 1 1 (fun i : ℕ => ((i / 2 : ℕ) : ℚ))).length ≤ Clock.framesOf 3 1 1 ∧
      (∀ p ∈ Clock.loopRun 3 1 1 (fun i : ℕ => ((i / 2 : ℕ) : ℚ)),
        pyIntQ (p.2 * (1 : ℕ)) < ((3 : ℕ) : ℤ)) ∧
      ((∀ n : ℕ, (fun i : ℕ => ((i / 2 : ℕ) : ℚ)) (2 * n + 1) =
          (fun i : ℕ => ((i / 2 : ℕ) : ℚ)) 0 + (n : ℚ) / ((1 : ℕ) : ℚ)) →
        (Clock.loopRun 3 1 1 (fun i : ℕ => ((i / 2 : ℕ) : ℚ))).length =
          Clock.framesOf 3 1 1)) := by
  have hsleep : ∀ n : ℕ, (fun i : ℕ => ((i / 2 : ℕ) : ℚ)) (2 * n + 2) +
      max 0 ((fun i : ℕ => ((i / 2 : ℕ) : ℚ)) 0 + ((n : ℚ) + 1) / ((1 : ℕ) : ℚ) -
        (fun i : ℕ => ((i / 2 : ℕ) : ℚ)) (2 * n + 2)) ≤
      (fun i : ℕ => ((i / 2 : ℕ) : ℚ)) (2 * n + 3) := by
    intro n
    simp only []
    have e0 : (0 : ℕ) / 2 = 0 := by omega
    have e2 : (2 * n + 2) / 2 = n + 1 := by omega
    have e3 : (2 * n + 3) / 2 = n + 1 := by omega
    rw [e0, e2, e3]
    push_cast
    have hmax : max 0 ((0 : ℚ) + ((n : ℚ) + 1) / 1 - ((n : ℚ) + 1)) = 0 := by
      rw [max_eq_left]
      norm_num
    rw [hmax]
    norm_num
  exact ⟨by norm_num, hsleep,
    playback_clock_spec 3 1 1 (fun i : ℕ => ((i / 2 : ℕ) : ℚ))
      (by norm_num) (by norm_num) hsleep⟩

/-- C1 (amended): when the decoder degrades to an empty buffer, the
play-pitch session prints the failure message, opens no audio stream and
renders no frames — but `play_and_visualize` returns normally and `main`
falls through, so the process exits with status 0 (a clean exit), not with
non-zero status. -/
theorem decode_failure_session_behavior (load : Option ℕ → List ℚ × ℕ)
    (supported : ℕ → Bool) (fast pretty : Bool) (r : ℕ → ℚ)
    (h : (load none).1 = []) :
    Session.playPitchMain load supported fast pretty r =
      ⟨["Failed to load audio."], false, 0, 0⟩ := by
  simp [Session.playPitchMain, h]

/-- C1 witness: the amended theorem at the always-failing loader. -/
theorem decode_failure_session_behavior_witness :
    ((fun _ : Option ℕ => (([] : List ℚ), 0)) none).1 = [] ∧
    Session.playPitchMain (fun _ => ([], 0)) (fun _ => true) false false (fun _ => 0) =
      ⟨["Failed to load audio."], false, 0, 0⟩ :=
  ⟨rfl, decode_failure_session_behavior (fun _ => ([], 0)) (fun _ => true) false false
    (fun _ => 0) rfl⟩

/-- C1 counterexample: with a decoder reporting total decode failure the
session prints the failure message, opens no stream and renders nothing,
but the exit status is 0 — the claim's "exits with non-zero status" is
false (`play_and_visualize` returns after printing, no exception reaches
`main`, and `main` never calls `sys.exit`). -/
theorem decode_failure_exit_code_is_zero :
    (Session.playPitchMain (fun _ => ([], 0)) (fun _ => true) false false
      (fun _ => 0)).exitCode = 0 ∧
    ¬ (Session.playPitchMain (fun _ => ([], 0)) (fun _ => true) false false
      (fun _ => 0)).exitCode ≠ 0 := by
  constructor <;> simp [Session.playPitchMain]

/-- C5 (amended): `load_audio` catches exactly `RuntimeError`: every
`RuntimeError` produced by `load_audio_ffmpeg` (which deliberately wraps
decode failures, probe failures and fallback-loader failures in
`RuntimeError`) degrades to the empty buffer with rate 0 plus two printed
diagnostic lines, and a successful load passes through with nothing
printed — so `load_audio` never returns/raises a `RuntimeError`; but an
exception of a different class (the `ValueError` raised while unpacking
malformed ffprobe output) propagates out of `load_audio` uncaught. -/
theorem load_audio_catches_runtime_error_only (env : Utils.Env) (sr? : Option ℕ) :
    (∀ m, Utils.load_audio_ffmpeg env sr? = .error (.runtimeError m) →
      Utils.load_audio env sr? =
        ⟨.ok ([], 0),
         ["Warning: " ++ m, "Falling back to dummy loader (returns empty array)."]⟩) ∧
    (∀ y rate, Utils.load_audio_ffmpeg env sr? = .ok (y, rate) →
      Utils.load_audio env sr? = ⟨.ok (y, rate), []⟩) ∧
    (∀ m, (Utils.load_audio env sr?).result ≠ .error (.runtimeError m)) := by
  refine ⟨?_, ?_, ?_⟩
  · intro m hm
    simp [Utils.load_audio, hm]
  · intro y rate hok
    simp [Utils.load_audio, hok]
  · intro m
    unfold Utils.load_audio
    rcases hr : Utils.load_audio_ffmpeg env sr? with e | v
    · cases e with
      | runtimeError msg => simp
      | valueError => simp
    · simp

/-- C5 witness: the catch branch of the amended theorem at a concrete
environment where ffprobe exits non-zero (`CalledProcessError`, wrapped
into a `RuntimeError`): `load_audio` degrades to `([], 0)` and prints the
two diagnostic lines. -/
theorem load_audio_catches_runtime_error_only_witness :
    Utils.load_audio_ffmpeg ⟨.processError "boom", fun _ => .fileNotFound, none⟩ none =
      .error (.runtimeError "ffmpeg or ffprobe failed: boom") ∧
    Utils.load_audio ⟨.processError "boom", fun _ => .fileNotFound, none⟩ none =
      ⟨.ok ([], 0),
       ["Warning: ffmpeg or ffprobe failed: boom",
        "Falling back to dummy loader (returns empty array)."]⟩ :=
  ⟨rfl, (load_audio_catches_runtime_error_only
      ⟨.processError "boom", fun _ => .fileNotFound, none⟩ none).1
    "ffmpeg or ffprobe failed: boom" rfl⟩

/-- C5 counterexample: an input file with no audio stream — ffprobe
succeeds (exit 0) with empty output, so
`channels, orig_sr = probe.stdout.strip().split('\n')` unpacks a
single-element list and raises `ValueError`; `load_audio` catches only
`RuntimeError`, so the exception propagates: `load_audio` raises, refuting
"never raises for any input path". -/
theorem load_audio_raises_value_error :
    (Utils.load_audio ⟨.output [""], fun _ => .fileNotFound, none⟩ none).result =
      .error .valueError := rfl

/-- C7: rate negotiation in the play_peak session.  (i) If the initially
loaded rate is unsupported and the fixed fallback rate 44100 Hz is
supported, the session renegotiates exactly once: it prints the fallback
warning, reloads the buffer at 44100 Hz (two loader calls in total), opens
the stream at 44100 and proceeds with exit status 0.  (ii) If the fallback
rate also fails, there is no further retry: the buffer is still reloaded
once, the stream open raises `PortAudioError`, and `main` surfaces it with
exit status 1. -/
theorem rate_negotiation_spec (load : Option ℕ → List ℚ × ℕ) (supported : ℕ → Bool)
    (hun : supported (load none).2 = false) (hne : (load (some 44100)).1 ≠ []) :
    (Session.playPeakMain load supported).loadCalls = 2 ∧
    (Session.playPeakMain load supported).sr = 44100 ∧
    (Session.playPeakMain load supported).buffer = (load (some 44100)).1 ∧
    (Session.playPeakMain load supported).printed.head? = some
      ("Warning: Sample rate " ++ toString (load none).2 ++
        " not supported. Falling back to 44100 Hz.") ∧
    (supported 44100 = true →
      (Session.playPeakMain load supported).openedStream = true ∧
      (Session.playPeakMain load supported).exitCode = 0) ∧
    (supported 44100 = false →
      (Session.playPeakMain load supported).openedStream = false ∧
      (Session.playPeakMain load supported).exitCode = 1) := by
  have hlen : ¬ (load (some 44100)).1.length = 0 := by
    simpa [List.length_eq_zero] using hne
  unfold Session.playPeakMain
  rcases hsup : supported 44100 with _ | _
  · simp [hun, hlen, hsup]
  · simp [hun, hlen, hsup]

/-- C7 witness: the negotiation theorem at a device supporting only
44100 Hz and a file whose native rate is 48000 Hz. -/
theorem rate_negotiation_spec_witness :
    ((fun n : ℕ => n == 44100)
        ((fun o : Option ℕ => if o = none then (([(1 : ℚ)]), 48000) else ([(1 : ℚ), 0], 44100))
          none).2 = false) ∧
    ((fun o : Option ℕ => if o = none then (([(1 : ℚ)]), 48000) else ([(1 : ℚ), 0], 44100))
        (some 44100)).1 ≠ [] ∧
    ((Session.playPeakMain
        (fun o : Option ℕ => if o = none then (([(1 : ℚ)]), 48000) else ([(1 : ℚ), 0], 44100))
        (fun n : ℕ => n == 44100)).loadCalls = 2 ∧
      (Session.playPeakMain
        (fun o : Option ℕ => if o = none then (([(1 : ℚ)]), 48000) else ([(1 : ℚ), 0], 44100))
        (fun n : ℕ => n == 44100)).sr = 44100) := by
  have h := rate_negotiation_spec
    (fun o : Option ℕ => if o = none then (([(1 : ℚ)]), 48000) else ([(1 : ℚ), 0], 44100))
    (fun n : ℕ => n == 44100) rfl (by simp)
  exact ⟨rfl, by simp, h.1, h.2.1⟩

/-- C9 (amended): frame composition is deterministic in *all* of its
inputs: two render states that agree on the LevelSequence, the color ramp,
the metadata, the status-line inputs (elapsed and duration) and the mode
flags produce byte-identical frame output, whatever the rest of the
session state (frame counter, audio cursor, raw clock reading) is.
Identical levels/ramp/metadata alone are not enough: the status line also
renders `elapsed`/`duration`. -/
theorem frame_composition_deterministic (s1 s2 : Compose.RenderState)
    (hlv : s1.levels = s2.levels) (hcs : s1.colorSteps = s2.colorSteps)
    (hmd : s1.metadata = s2.metadata) (hel : s1.elapsed = s2.elapsed)
    (hdu : s1.duration = s2.duration) (hfa : s1.fast = s2.fast)
    (hpr : s1.pretty = s2.pretty) :
    Compose.frameBytes s1 = Compose.frameBytes s2 := by
  unfold Compose.frameBytes
  rw [hlv, hcs, hmd, hel, hdu, hfa, hpr]

/-- C9 witness: two render states equal on the seven composition inputs
but with different frame counters, audio cursors and clock readings yield
byte-identical frames. -/
theorem frame_composition_deterministic_witness :
    Compose.frameBytes ⟨[3, 1], [160, 166, 3, 46, 22], [("title", "x")], 1, 2,
        false, false, 7, 1024, 5⟩ =
      Compose.frameBytes ⟨[3, 1], [160, 166, 3, 46, 22], [("title", "x")], 1, 2,
        false, false, 8, 2048, 9⟩ :=
  frame_composition_deterministic _ _ rfl rfl rfl rfl rfl rfl rfl

/-- C9 counterexample: two frames with identical LevelSequence, color ramp
and metadata but different `elapsed` values are not byte-identical — the
status line renders the elapsed time, which is not among the claim's listed
inputs. -/
theorem frame_composition_claim_false_without_elapsed :
    Compose.frameBytes ⟨[], [160, 166, 3, 46, 22], [], 0, 2, false, false, 0, 0, 0⟩ ≠
      Compose.frameBytes ⟨[], [160, 166, 3, 46, 22], [], 1, 2, false, false, 0, 0, 0⟩ := by
  have h0 : Compose.format2 0 = "0.00" := by
    norm_num [Compose.format2, Compose.roundHalfEven]
    decide
  have h1 : Compose.format2 1 = "1.00" := by
    norm_num [Compose.format2, Compose.roundHalfEven]
    decide
  have h2 : Compose.format2 2 = "2.00" := by
    norm_num [Compose.format2, Compose.roundHalfEven]
    decide
  simp only [Compose.frameBytes, Compose.composeFrame, Compose.rowLine, h0, h1, h2]
  decide

/-- C10: on the decode-failure path `load_audio` returns sample rate 0
together with the empty buffer, and every session entry point
(`play-pitch.py`, `play_peak.py`, `play.py`, `play-peak.py`) tests the
buffer for emptiness and returns with the failure message before ever
evaluating `duration = len(y) / sr`, so no session divides by the zero
failure rate (no entry point computes a duration on this path). -/
theorem decode_failure_rate_zero_guarded (env : Utils.Env) (sr? : Option ℕ) (m : String)
    (hf : Utils.load_audio_ffmpeg env sr? = .error (.runtimeError m))
    (load : Option ℕ → List ℚ × ℕ) (hl : ∀ q, load q = ([], 0))
    (supported : ℕ → Bool) (fast pretty : Bool) (r : ℕ → ℚ) :
    (Utils.load_audio env sr?).result = .ok ([], 0) ∧
    Session.playPitchMain load supported fast pretty r =
      ⟨["Failed to load audio."], false, 0, 0⟩ ∧
    (Session.playPeakMain load supported).duration = none ∧
    (Session.playPeakMain load supported).printed.getLast? = some "Failed to load audio." ∧
    (Session.playMain load).duration = none ∧
    (Session.playMain load).printed = ["Failed to load audio."] ∧
    (Session.playPeakOldMain load supported).duration = none ∧
    (Session.playPeakOldMain load supported).printed = ["Failed to load audio."] := by
  refine ⟨by simp [Utils.load_audio, hf], by simp [Session.playPitchMain, hl], ?_, ?_, ?_, ?_, ?_, ?_⟩
  · rcases hsup : supported 0 with _ | _ <;> simp [Session.playPeakMain, hl, hsup]
  · rcases hsup : supported 0 with _ | _ <;> simp [Session.playPeakMain, hl, hsup]
  · simp [Session.playMain, hl]
  · simp [Session.playMain, hl]
  · rcases hsup : supported 0 with _ | _ <;> simp [Session.playPeakOldMain, hl, hsup]
  · rcases hsup : supported 0 with _ | _ <;> simp [Session.playPeakOldMain, hl, hsup]

/-- C10 witness: the guarded-failure theorem at the environment where
ffprobe itself fails (decode failure) and the constant failing loader. -/
theorem decode_failure_rate_zero_guarded_witness :
    Utils.load_audio_ffmpeg ⟨.processError "bad file", fun _ => .fileNotFound, none⟩ none =
      .error (.runtimeError "ffmpeg or ffprobe failed: bad file") ∧
    (∀ q : Option ℕ, (fun _ : Option ℕ => (([] : List ℚ), 0)) q = ([], 0)) ∧
    ((Utils.load_audio ⟨.processError "bad file", fun _ => .fileNotFound, none⟩ none).result =
        .ok ([], 0) ∧
      Session.playPitchMain (fun _ => ([], 0)) (fun _ => false) false false (fun _ => 0) =
        ⟨["Failed to load audio."], false, 0, 0⟩ ∧
      (Session.playPeakMain (fun _ => ([], 0)) (fun _ => false)).duration = none ∧
      (Session.playPeakMain (fun _ => ([], 0)) (fun _ => false)).printed.getLast? =
        some "Failed to load audio." ∧
      (Session.playMain (fun _ => ([], 0))).duration = none ∧
      (Session.playMain (fun _ => ([], 0))).printed = ["Failed to load audio."] ∧
      (Session.playPeakOldMain (fun _ => ([], 0)) (fun _ => false)).duration = none ∧
      (Session.playPeakOldMain (fun _ => ([], 0)) (fun _ => false)).printed =
        ["Failed to load audio."]) :=
  ⟨rfl, fun _ => rfl,
    decode_failure_rate_zero_guarded ⟨.processError "bad file", fun _ => .fileNotFound, none⟩
      none "ffmpeg or ffprobe failed: bad file" rfl (fun _ => ([], 0)) (fun _ => rfl)
      (fun _ => false) false false (fun _ => 0)⟩

/-! ## Spectral-analyzer helper lemmas -/

theorem getD_map_range {β : Type} (f : ℕ → β) (n i : ℕ) (hi : i < n) (d : β) :
    ((List.range n).map f).getD i d = f i := by
  rw [List.getD_eq_getElem?_getD, List.getElem?_map, List.getElem?_range hi]
  rfl

theorem getD_of_all_zero {l : List ℝ} (h : ∀ x ∈ l, x = 0) (j : ℕ) : l.getD j 0 = 0 := by
  rw [List.getD_eq_getElem?_getD]
  rcases hg : l[j]? with _ | x
  · rfl
  · simpa using h x (List.getElem?_mem hg)

theorem getD_nonneg_of_all_nonneg {l : List ℝ} (h : ∀ x ∈ l, 0 ≤ x) (j : ℕ) :
    0 ≤ l.getD j 0 := by
  rw [List.getD_eq_getElem?_getD]
  rcases hg : l[j]? with _ | x
  · exact le_refl 0
  · simpa using h x (List.getElem?_mem hg)

theorem npMaxR_all_zero {l : List ℝ} (h : ∀ x ∈ l, x = 0) : PlayPitch.npMaxR l = 0 := by
  cases l with
  | nil => rfl
  | cons a t =>
    have ha : a = 0 := h a (List.mem_cons_self a t)
    unfold PlayPitch.npMaxR
    have hd : (a :: t).headD 0 = 0 := by simp [ha]
    rw [hd]
    have hle : (a :: t).foldr max 0 ≤ 0 :=
      foldr_max_le (le_refl 0) fun x hx => le_of_eq (h x hx)
    have hge : (0 : ℝ) ≤ (a :: t).foldr max 0 := le_foldr_max 0 (a :: t)
    linarith

theorem npMaxR_nonneg {l : List ℝ} (h : ∀ x ∈ l, 0 ≤ x) : 0 ≤ PlayPitch.npMaxR l := by
  cases l with
  | nil => exact le_refl 0
  | cons a t =>
    unfold PlayPitch.npMaxR
    have ha : (0 : ℝ) ≤ (a :: t).headD 0 := by simpa using h a (List.mem_cons_self a t)
    exact le_trans ha (le_foldr_max _ _)

theorem pyIntR_range {x : ℝ} {N : ℤ} (h0 : 0 ≤ x) (hN : x ≤ (N : ℝ)) :
    0 ≤ PlayPitch.pyIntR x ∧ PlayPitch.pyIntR x ≤ N := by
  unfold PlayPitch.pyIntR
  rw [if_pos h0]
  refine ⟨Int.floor_nonneg.2 h0, ?_⟩
  have := Int.floor_le_floor hN
  simpa using this

theorem zipWith_mul_zero_left (n : ℕ) : ∀ (w : List ℝ),
    ∀ x ∈ List.zipWith (· * ·) (List.replicate n (0 : ℝ)) w, x = 0 := by
  induction n with
  | zero => intro w x hx; simp at hx
  | succ n ih =>
    intro w x hx
    cases w with
    | nil => simp at hx
    | cons a t =>
      simp only [List.replicate_succ, List.zipWith_cons_cons, List.mem_cons] at hx
      rcases hx with rfl | hx
      · exact zero_mul a
      · exact ih t x hx

theorem rfftMag_nonneg (l : List ℝ) : ∀ x ∈ PlayPitch.rfftMag l, 0 ≤ x := by
  intro x hx
  rcases List.mem_map.1 hx with ⟨k, _, rfl⟩
  exact AbsoluteValue.nonneg Complex.abs _

theorem rfftMag_all_zero {l : List ℝ} (h : ∀ x ∈ l, x = 0) :
    ∀ x ∈ PlayPitch.rfftMag l, x = 0 := by
  intro x hx
  rcases List.mem_map.1 hx with ⟨k, _, rfl⟩
  have hs : (Finset.sum (Finset.range l.length) fun j =>
      ((l.getD j 0 : ℝ) : ℂ) * Complex.exp (-(2 * Real.pi * Complex.I * j * k) / l.length)) = 0 := by
    apply Finset.sum_eq_zero
    intro j _
    rw [getD_of_all_zero h j]
    simp
  rw [hs]
  simp

theorem bandPeaks_all_zero {spec : List ℝ} (freqs edges : List ℝ) (width : ℕ)
    (hs : ∀ x ∈ spec, x = 0) :
    ∀ m ∈ PlayPitch.bandPeaks spec freqs edges width, m = 0 := by
  intro m hm
  rcases List.mem_map.1 hm with ⟨i, _, rfl⟩
  dsimp only
  split
  · rfl
  · apply npMaxR_all_zero
    intro x hx
    rcases List.mem_map.1 hx with ⟨j, _, rfl⟩
    exact getD_of_all_zero hs j

theorem bandPeaks_nonneg {spec : List ℝ} (freqs edges : List ℝ) (width : ℕ)
    (hs : ∀ x ∈ spec, 0 ≤ x) :
    ∀ m ∈ PlayPitch.bandPeaks spec freqs edges width, 0 ≤ m := by
  intro m hm
  rcases List.mem_map.1 hm with ⟨i, _, rfl⟩
  dsimp only
  split
  · exact le_refl 0
  · apply npMaxR_nonneg
    intro x hx
    rcases List.mem_map.1 hx with ⟨j, _, rfl⟩
    exact getD_nonneg_of_all_nonneg hs j

theorem bandsOf_all_zero (n width : ℕ) (sr f_min : ℝ) :
    ∀ m ∈ PlayPitch.bandsOf (List.replicate n (0 : ℝ)) width sr f_min, m = 0 := by
  intro m hm
  unfold PlayPitch.bandsOf at hm
  refine bandPeaks_all_zero _ _ _ ?_ m hm
  exact rfftMag_all_zero (zipWith_mul_zero_left _ _)

theorem bandsOf_nonneg (chunk : List ℝ) (width : ℕ) (sr f_min : ℝ) :
    ∀ m ∈ PlayPitch.bandsOf chunk width sr f_min, 0 ≤ m := by
  intro m hm
  unfold PlayPitch.bandsOf at hm
  exact bandPeaks_nonneg _ _ _ (rfftMag_nonneg _) m hm

theorem bandsOf_length (chunk : List ℝ) (width : ℕ) (sr f_min : ℝ) :
    (PlayPitch.bandsOf chunk width sr f_min).length = width := by
  unfold PlayPitch.bandsOf PlayPitch.bandPeaks
  simp

theorem logb_ten_inv_nine : Real.logb 10 (1 / 10 ^ 9 : ℝ) = -9 := by
  rw [show (1 / 10 ^ 9 : ℝ) = (10 : ℝ) ^ (-9 : ℝ) by
    rw [Real.rpow_neg (by norm_num), show ((9 : ℝ)) = ((9 : ℕ) : ℝ) by norm_num,
      Real.rpow_natCast]
    norm_num]
  rw [Real.logb_rpow (by norm_num) (by norm_num)]

theorem levelOf_zero (height : ℕ) (ref : ℝ) : PlayPitch.levelOf height (-60) ref 0 = 0 := by
  unfold PlayPitch.levelOf
  rw [zero_div, zero_add, logb_ten_inv_nine]
  norm_num [PlayPitch.pyIntR, max_def]

/-- C8: the spectral analyzer on an all-zero window of any length, at any
sample rate and any positive reference magnitude (with the program's
defaults `floor_db = -60`, `f_min = 20`), returns the lowest level 0 for
every one of its `width` columns. -/
theorem spectrum_all_zero_window (n width height : ℕ) (sr ref : ℝ) (_href : 0 < ref) :
    (PlayPitch.render_spectrum_bars (List.replicate n (0 : ℝ))
        width height sr (-60) 20 ref).length = width ∧
    ∀ l ∈ PlayPitch.render_spectrum_bars (List.replicate n (0 : ℝ))
        width height sr (-60) 20 ref, l = 0 := by
  unfold PlayPitch.render_spectrum_bars
  by_cases hn : (List.replicate n (0 : ℝ)).length = 0
  · rw [if_pos hn]
    exact ⟨List.length_replicate width 0, fun l hl => List.eq_of_mem_replicate hl⟩
  · rw [if_neg hn]
    constructor
    · rw [List.length_map, bandsOf_length]
    · intro l hl
      rcases List.mem_map.1 hl with ⟨m, hm, rfl⟩
      rw [bandsOf_all_zero n width sr 20 m hm]
      exact levelOf_zero height ref

/-- C8 witness: the all-zero-window theorem at a 4-sample silent window,
44100 Hz, reference magnitude 1, width 3, height 5. -/
theorem spectrum_all_zero_window_witness :
    (0 : ℝ) < 1 ∧
    ((PlayPitch.render_spectrum_bars (List.replicate 4 (0 : ℝ))
        3 5 44100 (-60) 20 1).length = 3 ∧
      ∀ l ∈ PlayPitch.render_spectrum_bars (List.replicate 4 (0 : ℝ))
        3 5 44100 (-60) 20 1, l = 0) :=
  ⟨by norm_num, spectrum_all_zero_window 4 3 5 44100 1 (by norm_num)⟩

theorem levelOf_nonneg (height : ℕ) (floor_db ref m : ℝ) (hfl : floor_db < 0) :
    0 ≤ PlayPitch.levelOf height floor_db ref m := by
  simp only [PlayPitch.levelOf]
  have hnormnn : 0 ≤ (max (20 * Real.logb 10 (m / (ref + 1 / 10 ^ 9) + 1 / 10 ^ 9)) floor_db -
      floor_db) / (-floor_db) := by
    apply div_nonneg
    · have := le_max_right (20 * Real.logb 10 (m / (ref + 1 / 10 ^ 9) + 1 / 10 ^ 9)) floor_db
      linarith
    · linarith
  have h0 : 0 ≤ (max (20 * Real.logb 10 (m / (ref + 1 / 10 ^ 9) + 1 / 10 ^ 9)) floor_db -
      floor_db) / (-floor_db) * (height : ℝ) :=
    mul_nonneg hnormnn (Nat.cast_nonneg height)
  unfold PlayPitch.pyIntR
  rw [if_pos h0]
  exact Int.floor_nonneg.2 h0

theorem levelOf_le_height (height : ℕ) (floor_db ref m : ℝ) (hfl : floor_db < 0)
    (href : 0 < ref) (hm : 0 ≤ m) (hb : m / (ref + 1 / 10 ^ 9) + 1 / 10 ^ 9 ≤ 1) :
    PlayPitch.levelOf height floor_db ref m ≤ (height : ℤ) := by
  simp only [PlayPitch.levelOf]
  have hre : (0 : ℝ) < ref + 1 / 10 ^ 9 := by positivity
  have harg0 : (0 : ℝ) < m / (ref + 1 / 10 ^ 9) + 1 / 10 ^ 9 := by
    have h1 : (0 : ℝ) ≤ m / (ref + 1 / 10 ^ 9) := div_nonneg hm (le_of_lt hre)
    have h2 : (0 : ℝ) < 1 / 10 ^ 9 := by norm_num
    linarith
  have hlog : Real.logb 10 (m / (ref + 1 / 10 ^ 9) + 1 / 10 ^ 9) ≤ 0 :=
    Real.logb_nonpos (by norm_num) (le_of_lt harg0) hb
  have hcl0 : max (20 * Real.logb 10 (m / (ref + 1 / 10 ^ 9) + 1 / 10 ^ 9)) floor_db ≤ 0 :=
    max_le (by linarith) (le_of_lt hfl)
  have hclf : floor_db ≤ max (20 * Real.logb 10 (m / (ref + 1 / 10 ^ 9) + 1 / 10 ^ 9)) floor_db :=
    le_max_right _ _
  have hnormnn : 0 ≤ (max (20 * Real.logb 10 (m / (ref + 1 / 10 ^ 9) + 1 / 10 ^ 9)) floor_db -
      floor_db) / (-floor_db) := div_nonneg (by linarith) (by linarith)
  have hnorm1 : (max (20 * Real.logb 10 (m / (ref + 1 / 10 ^ 9) + 1 / 10 ^ 9)) floor_db -
      floor_db) / (-floor_db) ≤ 1 := by
    rw [div_le_one (by linarith)]
    linarith
  have hle : (max (20 * Real.logb 10 (m / (ref + 1 / 10 ^ 9) + 1 / 10 ^ 9)) floor_db -
      floor_db) / (-floor_db) * (height : ℝ) ≤ (((height : ℤ) : ℝ)) := by
    push_cast
    nlinarith [Nat.cast_nonneg (α := ℝ) height]
  exact (pyIntR_range (mul_nonneg hnormnn (Nat.cast_nonneg height)) hle).2

/-- C4 (amended): every value produced by the spectral analyzer is bounded
below by 0 for any input; and it is bounded above by `height` whenever
every per-band peak magnitude `m` satisfies
`m / (ref + 1e-9) + 1e-9 ≤ 1` (i.e. the band does not exceed the reference
magnitude).  The upper bound does *not* hold unconditionally: `mags_db` is
clipped below at `floor_db` but never clipped above at 0, so a band louder
than the reference yields a level above `height` (see the
counterexample). -/
theorem spectrum_levels_range (chunk : List ℝ) (width height : ℕ)
    (sr f_min floor_db ref : ℝ) (href : 0 < ref) (hfl : floor_db < 0) :
    (∀ l ∈ PlayPitch.render_spectrum_bars chunk width height sr floor_db f_min ref, 0 ≤ l) ∧
    ((∀ m ∈ PlayPitch.bandsOf chunk width sr f_min, m / (ref + 1 / 10 ^ 9) + 1 / 10 ^ 9 ≤ 1) →
      ∀ l ∈ PlayPitch.render_spectrum_bars chunk width height sr floor_db f_min ref,
        l ≤ (height : ℤ)) := by
  unfold PlayPitch.render_spectrum_bars
  by_cases hn : chunk.length = 0
  · rw [if_pos hn]
    constructor
    · intro l hl
      rw [List.eq_of_mem_replicate hl]
    · intro _ l hl
      rw [List.eq_of_mem_replicate hl]
      exact Int.ofNat_nonneg height
  · rw [if_neg hn]
    constructor
    · intro l hl
      rcases List.mem_map.1 hl with ⟨m, _, rfl⟩
      exact levelOf_nonneg height floor_db ref m hfl
    · intro hb l hl
      rcases List.mem_map.1 hl with ⟨m, hm, rfl⟩
      exact levelOf_le_height height floor_db ref m hfl href
        (bandsOf_nonneg chunk width sr f_min m hm) (hb m hm)

/-- C4 witness: the range theorem at a 2-sample silent chunk with
reference magnitude 1 (all bands are 0, so the band-bound hypothesis
holds), width 60, height 18. -/
theorem spectrum_levels_range_witness :
    (0 : ℝ) < 1 ∧ (-60 : ℝ) < 0 ∧
    (∀ m ∈ PlayPitch.bandsOf (List.replicate 2 (0 : ℝ)) 60 44100 20,
      m / (1 + 1 / 10 ^ 9) + 1 / 10 ^ 9 ≤ 1) ∧
    (∀ l ∈ PlayPitch.render_spectrum_bars (List.replicate 2 (0 : ℝ))
        60 18 44100 (-60) 20 1, 0 ≤ l) ∧
    (∀ l ∈ PlayPitch.render_spectrum_bars (List.replicate 2 (0 : ℝ))
        60 18 44100 (-60) 20 1, l ≤ (18 : ℤ)) := by
  have hb : ∀ m ∈ PlayPitch.bandsOf (List.replicate 2 (0 : ℝ)) 60 44100 20,
      m / (1 + 1 / 10 ^ 9) + 1 / 10 ^ 9 ≤ 1 := by
    intro m hm
    rw [bandsOf_all_zero 2 60 44100 20 m hm]
    norm_num
  have h := spectrum_levels_range (List.replicate 2 (0 : ℝ)) 60 18 44100 20 (-60) 1
    (by norm_num) (by norm_num)
  exact ⟨by norm_num, by norm_num, hb, h.1, by simpa using h.2 hb⟩

theorem hann3_windowed :
    List.zipWith (· * ·) ([0, 1, 0] : List ℝ) (PlayPitch.hanning 3) = [0, 1, 0] := by
  unfold PlayPitch.hanning
  rw [if_neg (by norm_num)]
  have h1 : (1 : ℝ) / 2 - 1 / 2 * Real.cos (2 * Real.pi * ((1 : ℕ) : ℝ) / (((3 : ℕ) : ℝ) - 1)) = 1 := by
    rw [show 2 * Real.pi * ((1 : ℕ) : ℝ) / (((3 : ℕ) : ℝ) - 1) = Real.pi by push_cast; ring]
    rw [Real.cos_pi]
    norm_num
  rw [show List.range 3 = [0, 1, 2] from rfl]
  simp only [List.map_cons, List.map_nil, List.zipWith_cons_cons, List.zipWith_nil_right]
  rw [zero_mul, zero_mul, one_mul, h1]

theorem rfftMag_010_bin1 : (PlayPitch.rfftMag ([0, 1, 0] : List ℝ)).getD 1 0 = 1 := by
  unfold PlayPitch.rfftMag
  rw [show ([0, 1, 0] : List ℝ).length = 3 from rfl]
  rw [getD_map_range _ (3 / 2 + 1) 1 (by norm_num) 0]
  rw [Finset.sum_range_succ, Finset.sum_range_succ, Finset.sum_range_one]
  rw [show (([0, 1, 0] : List ℝ).getD 0 0) = 0 from rfl,
    show (([0, 1, 0] : List ℝ).getD 1 0) = 1 from rfl,
    show (([0, 1, 0] : List ℝ).getD 2 0) = 0 from rfl]
  rw [Complex.ofReal_zero, Complex.ofReal_one, zero_mul, zero_mul, one_mul,
    zero_add, add_zero]
  rw [show (-(2 * (Real.pi : ℂ) * Complex.I * ((1 : ℕ) : ℂ) * ((1 : ℕ) : ℂ)) / ((3 : ℕ) : ℂ))
      = ((-(2 * Real.pi / 3) : ℝ) : ℂ) * Complex.I by push_cast; ring]
  exact Complex.abs_exp_ofReal_mul_I _

theorem rfftfreq3_getD0 : (PlayPitch.rfftfreq 3 44100).getD 0 0 = 0 := by
  unfold PlayPitch.rfftfreq
  rw [getD_map_range _ (3 / 2 + 1) 0 (by norm_num) 0]
  norm_num

theorem rfftfreq3_getD1 : (PlayPitch.rfftfreq 3 44100).getD 1 0 = 14700 := by
  unfold PlayPitch.rfftfreq
  rw [getD_map_range _ (3 / 2 + 1) 1 (by norm_num) 0]
  norm_num

theorem rfftfreq3_length : (PlayPitch.rfftfreq 3 44100).length = 2 := by
  unfold PlayPitch.rfftfreq
  simp

theorem edge_val (i : ℕ) (hi : i < 61) :
    (PlayPitch.logspace (Real.logb 10 20) (Real.logb 10 ((44100 : ℝ) / 2)) 61).getD i 0
      = 20 * ((2205 / 2 : ℝ)) ^ ((i : ℝ) / 60) := by
  unfold PlayPitch.logspace
  rw [getD_map_range _ 61 i hi 0]
  have h61 : ((61 : ℕ) : ℝ) - 1 = 60 := by norm_num
  rw [h61]
  have ha : (10 : ℝ) ^ (Real.logb 10 20) = 20 :=
    Real.rpow_logb (by norm_num) (by norm_num) (by norm_num)
  have hbv : (10 : ℝ) ^ (Real.logb 10 ((44100 : ℝ) / 2)) = 44100 / 2 :=
    Real.rpow_logb (by norm_num) (by norm_num) (by norm_num)
  rw [show Real.logb 10 20 + (i : ℝ) * (Real.logb 10 ((44100 : ℝ) / 2) - Real.logb 10 20) / 60
      = Real.logb 10 20 + (Real.logb 10 ((44100 : ℝ) / 2) - Real.logb 10 20) * ((i : ℝ) / 60)
      by ring]
  rw [Real.rpow_add (by norm_num), Real.rpow_mul (by norm_num : (0 : ℝ) ≤ 10),
    Real.rpow_sub (by norm_num), ha, hbv]
  rw [show ((44100 : ℝ) / 2 / 20) = 2205 / 2 by norm_num]

theorem edge56_le : 20 * ((2205 / 2 : ℝ)) ^ ((56 : ℝ) / 60) ≤ 14700 := by
  have hc : (0 : ℝ) < 2205 / 2 := by norm_num
  have key : ((2205 / 2 : ℝ)) ^ ((56 : ℝ) / 60) ≤ 735 := by
    by_contra hgt
    push_neg at hgt
    have h15 : (735 : ℝ) ^ (15 : ℕ) < (((2205 / 2 : ℝ)) ^ ((56 : ℝ) / 60)) ^ (15 : ℕ) :=
      pow_lt_pow_left₀ hgt (by norm_num) (by norm_num)
    rw [← Real.rpow_natCast (((2205 / 2 : ℝ)) ^ ((56 : ℝ) / 60)) 15,
      ← Real.rpow_mul (le_of_lt hc),
      show ((56 : ℝ) / 60 * ((15 : ℕ) : ℝ)) = ((14 : ℕ) : ℝ) by norm_num,
      Real.rpow_natCast] at h15
    norm_num at h15
  linarith

theorem lt_edge57 : (14700 : ℝ) < 20 * ((2205 / 2 : ℝ)) ^ ((57 : ℝ) / 60) := by
  have hc : (0 : ℝ) < 2205 / 2 := by norm_num
  have key : (735 : ℝ) < ((2205 / 2 : ℝ)) ^ ((57 : ℝ) / 60) := by
    by_contra hle
    push_neg at hle
    have h20 : (((2205 / 2 : ℝ)) ^ ((57 : ℝ) / 60)) ^ (20 : ℕ) ≤ (735 : ℝ) ^ (20 : ℕ) :=
      pow_le_pow_left₀ (le_of_lt (Real.rpow_pos_of_pos hc _)) hle 20
    rw [← Real.rpow_natCast (((2205 / 2 : ℝ)) ^ ((57 : ℝ) / 60)) 20,
      ← Real.rpow_mul (le_of_lt hc),
      show ((57 : ℝ) / 60 * ((20 : ℕ) : ℝ)) = ((19 : ℕ) : ℝ) by norm_num,
      Real.rpow_natCast] at h20
    norm_num at h20
  linarith

theorem edge56_pos : (0 : ℝ) < 20 * ((2205 / 2 : ℝ)) ^ ((56 : ℝ) / 60) := by
  have : (0 : ℝ) < ((2205 / 2 : ℝ)) ^ ((56 : ℝ) / 60) :=
    Real.rpow_pos_of_pos (by norm_num) _
  linarith

theorem band56_eq_one :
    (PlayPitch.bandsOf ([0, 1, 0] : List ℝ) 60 44100 20).getD 56 0 = 1 := by
  simp only [PlayPitch.bandsOf]
  rw [show ([0, 1, 0] : List ℝ).length = 3 from rfl, hann3_windowed]
  unfold PlayPitch.bandPeaks
  rw [getD_map_range _ 60 56 (by norm_num) 0]
  simp only [rfftfreq3_length]
  rw [show (60 : ℕ) + 1 = 61 from rfl]
  rw [edge_val 56 (by norm_num), edge_val 57 (by norm_num)]
  rw [show List.range 2 = [0, 1] from rfl]
  rw [show (((56 : ℕ)) : ℝ) = 56 from by norm_num, show (((57 : ℕ)) : ℝ) = 57 from by norm_num]
  simp only [List.filter_cons, List.filter_nil]
  rw [rfftfreq3_getD0, rfftfreq3_getD1]
  rw [decide_eq_false (not_le.2 edge56_pos), Bool.false_and,
    decide_eq_true edge56_le, decide_eq_true lt_edge57, Bool.and_self]
  simp only [Bool.false_eq_true, if_false, if_true, List.isEmpty_cons]
  simp only [List.map_cons, List.map_nil]
  rw [rfftMag_010_bin1]
  simp [PlayPitch.npMaxR]

theorem eight_le_logb_ten {x : ℝ} (hx : (10 : ℝ) ^ (8 : ℕ) ≤ x) :
    (8 : ℝ) ≤ Real.logb 10 x := by
  have h0 : (0 : ℝ) < (10 : ℝ) ^ (8 : ℕ) := by norm_num
  rw [show (8 : ℝ) = Real.logb 10 ((10 : ℝ) ^ (8 : ℕ)) by
    rw [show ((10 : ℝ) ^ (8 : ℕ)) = (10 : ℝ) ^ ((8 : ℕ) : ℝ) by rw [Real.rpow_natCast],
      Real.logb_rpow (by norm_num) (by norm_num)]
    norm_num]
  exact Real.logb_le_logb_of_le (by norm_num) h0 hx

theorem levelOf_one_tiny_ref : (18 : ℤ) < PlayPitch.levelOf 18 (-60) (1 / 10 ^ 9) 1 := by
  simp only [PlayPitch.levelOf]
  have h8 : (8 : ℝ) ≤ Real.logb 10 ((1 : ℝ) / (1 / 10 ^ 9 + 1 / 10 ^ 9) + 1 / 10 ^ 9) :=
    eight_le_logb_ten (by norm_num)
  have hmax : (160 : ℝ) ≤
      max (20 * Real.logb 10 ((1 : ℝ) / (1 / 10 ^ 9 + 1 / 10 ^ 9) + 1 / 10 ^ 9)) (-60) :=
    le_trans (by linarith) (le_max_left _ _)
  have hval : ((max (20 * Real.logb 10 ((1 : ℝ) / (1 / 10 ^ 9 + 1 / 10 ^ 9) + 1 / 10 ^ 9)) (-60)
      - -60) / -(-60 : ℝ)) * ((18 : ℕ) : ℝ)
      = (max (20 * Real.logb 10 ((1 : ℝ) / (1 / 10 ^ 9 + 1 / 10 ^ 9) + 1 / 10 ^ 9)) (-60)
        + 60) * (3 / 10) := by
    push_cast
    ring
  have h19 : (19 : ℝ) ≤ ((max (20 * Real.logb 10 ((1 : ℝ) / (1 / 10 ^ 9 + 1 / 10 ^ 9)
      + 1 / 10 ^ 9)) (-60) - -60) / -(-60 : ℝ)) * ((18 : ℕ) : ℝ) := by
    rw [hval]
    linarith
  have h0 : (0 : ℝ) ≤ ((max (20 * Real.logb 10 ((1 : ℝ) / (1 / 10 ^ 9 + 1 / 10 ^ 9)
      + 1 / 10 ^ 9)) (-60) - -60) / -(-60 : ℝ)) * ((18 : ℕ) : ℝ) := by linarith
  unfold PlayPitch.pyIntR
  rw [if_pos h0]
  have hfl : (19 : ℤ) ≤ ⌊((max (20 * Real.logb 10 ((1 : ℝ) / (1 / 10 ^ 9 + 1 / 10 ^ 9)
      + 1 / 10 ^ 9)) (-60) - -60) / -(-60 : ℝ)) * ((18 : ℕ) : ℝ)⌋ := by
    apply Int.le_floor.2
    exact_mod_cast h19
  omega

theorem getD_map_of_lt {α β : Type} (f : α → β) (l : List α) (i : ℕ) (hi : i < l.length)
    (d : β) (d' : α) : (l.map f).getD i d = f (l.getD i d') := by
  rw [List.getD_eq_getElem?_getD, List.getElem?_map, List.getElem?_eq_getElem hi,
    List.getD_eq_getElem?_getD, List.getElem?_eq_getElem hi]
  rfl

/-- C4 counterexample: the claim fails as stated.  For the 3-sample chunk
`[0, 1, 0]` (windowed spectrum magnitude 1 in the band containing
14700 Hz) and the positive reference magnitude `1e-9`, the level of
column 56 exceeds `height = 18`: the dB value `20*log10(m/(ref+1e-9)+1e-9)`
is clipped below at `floor_db = -60` but never clipped above at 0, so
`norm > 1` and the level lands far above `height`. -/
theorem spectrum_level_exceeds_height :
    (0 : ℝ) < 1 / 10 ^ 9 ∧
    (PlayPitch.render_spectrum_bars [0, 1, 0] 60 18 44100 (-60) 20 (1 / 10 ^ 9)).length = 60 ∧
    (18 : ℤ) <
      (PlayPitch.render_spectrum_bars [0, 1, 0] 60 18 44100 (-60) 20 (1 / 10 ^ 9)).getD 56 0 := by
  refine ⟨by norm_num, ?_, ?_⟩
  · unfold PlayPitch.render_spectrum_bars
    rw [if_neg (by simp)]
    rw [List.length_map, bandsOf_length]
  · unfold PlayPitch.render_spectrum_bars
    rw [if_neg (by simp)]
    rw [getD_map_of_lt _ _ 56 (by rw [bandsOf_length]; norm_num) 0 0]
    rw [band56_eq_one]
    exact levelOf_one_tiny_ref

end NowPlaying
